import Mathlib

/-!
Verification of the instruction-table code generator (`src/main.py`).

The program reads a comma-separated table from the fixed path
`cpu_instruction.csv` (pandas `read_csv`), iterates the data rows in file
order (`df.iterrows()`), looks up the four columns `name`, `operation`,
`addressingMode`, `cycles` on each row with `Series.get` (which returns the
Python default `None` when the column is absent), and prints one formatted
line per row.

The embedding models:
* a parsed CSV file as a header (list of column names) plus a list of data
  rows (each a list of cell texts);
* a pandas row (`Series`) as an association of column name to cell text,
  built by zipping the header with the row's cells; `Series.get` is
  name-based lookup returning `Option String`;
* Python string interpolation of a possibly-`None` value (`f"...{v}..."`):
  `None` formats as the four characters `None`;
* the observable effects of a run as a trace: one read of the fixed input
  path followed by one standard-output write per emitted line; a failing
  `read_csv` propagates as an `Except.error` and emits nothing.
-/

/-- The hard-coded input path of `pd.read_csv("cpu_instruction.csv")`. -/
def inputPath : String := "cpu_instruction.csv"

/-- A parsed CSV file: the header row (column names, in file order) and the
data rows (each a list of cell texts, in file order). -/
structure CsvFile where
  header : List String
  dataRows : List (List String)
deriving DecidableEq, Repr

/-- One pandas row as produced by `df.iterrows()`: an ordered association of
column name to cell text. -/
structure Row where
  cells : List (String × String)
deriving DecidableEq, Repr

/-- `Series.get(label)`: name-based lookup on a row, returning the Python
default `None` (here `Option.none`) when no such column exists. -/
def Row.get (r : Row) (col : String) : Option String :=
  (r.cells.find? (fun p => p.1 == col)).map Prod.snd

/-- Build the row record for one data row: pandas associates each cell with
the column name at the same position of the header. -/
def mkRow (header cells : List String) : Row :=
  ⟨header.zip cells⟩

/-- Python string interpolation of a value that may be `None`
(`f"...{v}..."`): `None` formats as the text `None`. -/
def renderField : Option String → String
  | some s => s
  | none => "None"

/-- The fixed output template of the `print` f-string, as a function of the
four already-rendered field texts, in template order
name, operation, addressingMode, cycles. -/
def emitLineParts (n o a c : String) : String :=
  "Instruction::new(\"" ++ n ++ "\".to_string(),Some(Cpu::" ++ o ++
    "),Some(Cpu::" ++ a ++ ")," ++ c ++ "),"

/-- The line printed for one row: the four `Series.get` lookups interpolated
into the fixed template. -/
def emitLine (r : Row) : String :=
  emitLineParts (renderField (r.get "name")) (renderField (r.get "operation"))
    (renderField (r.get "addressingMode")) (renderField (r.get "cycles"))

/-- The loop of `main.py`: one output line per data row, in file order. -/
def runProgram (f : CsvFile) : List String :=
  f.dataRows.map (fun cells => emitLine (mkRow f.header cells))

/-- The whole program, parameterised by the result of `read_csv`: an
exception from loading propagates uncaught (there is no try/except), and
only a successful load reaches the emission loop. -/
def program : Except String CsvFile → Except String (List String)
  | Except.error e => Except.error e
  | Except.ok f => Except.ok (runProgram f)

/-- The observable effects of one run. -/
inductive Effect where
  | readFile : String → Effect
  | writeFile : String → String → Effect
  | writeStdout : String → Effect
  | writeStderr : String → Effect
deriving DecidableEq, Repr

/-- The effect trace of one run: the single `read_csv` of the fixed path,
then (when the load succeeded) one standard-output write per emitted line,
in order. A failed load emits nothing after the read. -/
def programTrace (res : Except String CsvFile) : List Effect :=
  Effect.readFile inputPath ::
    (match res with
     | Except.error _ => []
     | Except.ok f => (runProgram f).map Effect.writeStdout)

/-- The four column names the emitter looks up. -/
def fourCols : List String := ["name", "operation", "addressingMode", "cycles"]

/-- Classifiers of effects, used to state the frame conditions. -/
def Effect.isRead : Effect → Bool
  | Effect.readFile _ => true
  | _ => false

def Effect.isFileWrite : Effect → Bool
  | Effect.writeFile _ _ => true
  | _ => false

def Effect.isStdoutWrite : Effect → Bool
  | Effect.writeStdout _ => true
  | _ => false

def Effect.isStderrWrite : Effect → Bool
  | Effect.writeStderr _ => true
  | _ => false

/- ### Helper lemmas -/

/-- The emission loop produces exactly one line per data row. -/
lemma runProgram_length (f : CsvFile) :
    (runProgram f).length = f.dataRows.length := by
  simp [runProgram]

/-- A lookup of a column name that does not occur in the header misses. -/
lemma Row.get_eq_none_of_not_mem (header cells : List String) (c : String)
    (h : c ∉ header) : (mkRow header cells).get c = none := by
  unfold mkRow Row.get
  have hf : List.find? (fun p => p.1 == c) (header.zip cells) = none := by
    rw [List.find?_eq_none]
    intro p hp
    rcases List.of_mem_zip hp with ⟨h1, _⟩
    simp only [beq_iff_eq]
    intro hc
    exact h (hc ▸ h1)
  rw [hf]
  rfl

/-- `emitLine` depends only on the four looked-up fields. -/
lemma emitLine_congr (r s : Row)
    (h : ∀ c ∈ fourCols, r.get c = s.get c) :
    emitLine r = emitLine s := by
  have hn := h "name" (by simp [fourCols])
  have ho := h "operation" (by simp [fourCols])
  have ha := h "addressingMode" (by simp [fourCols])
  have hc := h "cycles" (by simp [fourCols])
  simp [emitLine, hn, ho, ha, hc]

/-- Mapping the emitter over two row lists that agree on the four looked-up
columns yields the same lines. -/
lemma map_emitLine_congr (h1 h2 : List String) (l1 l2 : List (List String))
    (h : List.Forall₂
        (fun a b => ∀ c ∈ fourCols, (mkRow h1 a).get c = (mkRow h2 b).get c)
        l1 l2) :
    l1.map (fun a => emitLine (mkRow h1 a)) =
      l2.map (fun b => emitLine (mkRow h2 b)) := by
  induction h with
  | nil => rfl
  | cons hrel _ ih =>
      simp only [List.map_cons, ih]
      rw [emitLine_congr _ _ hrel]

/- ### Claims -/

/-- C2: for every well-formed input file, the number of emitted output lines
equals the number of data rows (the header is not a data row); in
particular a header-only file yields zero lines. -/
theorem output_count_eq_row_count (f : CsvFile) :
    (runProgram f).length = f.dataRows.length ∧
    (runProgram ⟨f.header, []⟩).length = 0 := by
  exact ⟨runProgram_length f, rfl⟩

/-- C3: the i-th output line is generated from the i-th data row — indexing
the output agrees with indexing the input rows, with no reordering,
dropping or duplication (both sides are `none` exactly beyond the length). -/
theorem output_order_eq_input_order (f : CsvFile) (i : Nat) :
    (runProgram f)[i]? =
      (f.dataRows[i]?).map (fun cells => emitLine (mkRow f.header cells)) := by
  simp [runProgram]

/-- C4: on the concrete file with header `name,operation,addressingMode,cycles`
and the single data row `LDA,load_accumulator,immediate,2`, the program
emits exactly the one expected line and nothing else. -/
theorem concrete_lda_row :
    runProgram
        ⟨["name", "operation", "addressingMode", "cycles"],
         [["LDA", "load_accumulator", "immediate", "2"]]⟩ =
      ["Instruction::new(\"LDA\".to_string(),Some(Cpu::load_accumulator),Some(Cpu::immediate),2),"] := by
  rfl

/-- C7: determinism — two runs on byte-for-byte identical input produce
identical output traces (and identical output lines). -/
theorem run_deterministic (f g : CsvFile) (h : f = g) :
    runProgram f = runProgram g ∧
      programTrace (Except.ok f) = programTrace (Except.ok g) := by
  subst h; exact ⟨rfl, rfl⟩

/-- Witness for C7 at a concrete input. -/
theorem run_deterministic_witness :
    runProgram ⟨["name"], [["LDA"]]⟩ = runProgram ⟨["name"], [["LDA"]]⟩ ∧
      programTrace (Except.ok ⟨["name"], [["LDA"]]⟩) =
        programTrace (Except.ok ⟨["name"], [["LDA"]]⟩) :=
  run_deterministic ⟨["name"], [["LDA"]]⟩ ⟨["name"], [["LDA"]]⟩ rfl

/-- C1: for every row whose four lookups succeed, the emitted line has the
exact template shape, with the name substituted verbatim inside the quotes
(no escaping), the operation and addressing mode substituted verbatim as
bare identifiers, and the cycles text substituted literally. -/
theorem emitted_line_shape (r : Row) (n o a cy : String)
    (hn : r.get "name" = some n) (ho : r.get "operation" = some o)
    (ha : r.get "addressingMode" = some a) (hcy : r.get "cycles" = some cy) :
    emitLine r =
      "Instruction::new(\"" ++ n ++ "\".to_string(),Some(Cpu::" ++ o ++
        "),Some(Cpu::" ++ a ++ ")," ++ cy ++ "),"
    := by
  simp [emitLine, emitLineParts, renderField, hn, ho, ha, hcy]

/-- Witness for C1 at a concrete row. -/
theorem emitted_line_shape_witness :
    (mkRow ["name", "operation", "addressingMode", "cycles"]
        ["LDA", "load_accumulator", "immediate", "2"]).get "name" = some "LDA" ∧
    emitLine (mkRow ["name", "operation", "addressingMode", "cycles"]
        ["LDA", "load_accumulator", "immediate", "2"]) =
      "Instruction::new(\"" ++ "LDA" ++ "\".to_string(),Some(Cpu::" ++
        "load_accumulator" ++ "),Some(Cpu::" ++ "immediate" ++ ")," ++ "2" ++ "),"
    := ⟨by decide,
      emitted_line_shape _ "LDA" "load_accumulator" "immediate" "2"
        (by decide) (by decide) (by decide) (by decide)⟩

/-- C5: when one of the four named columns is absent from the header, the
program still succeeds (no abort), every lookup of that column on every row
misses, and each emitted line carries the missing-value marker at exactly
that column's position of the template, the other positions being the
ordinary renderings. -/
theorem absent_column_absorbed (f : CsvFile) (c : String)
    (hc : c ∈ fourCols) (habs : c ∉ f.header) :
    program (Except.ok f) = Except.ok (runProgram f) ∧
    ∀ cells ∈ f.dataRows,
      (mkRow f.header cells).get c = none ∧
      emitLine (mkRow f.header cells) =
        emitLineParts
          (if "name" = c then "None"
            else renderField ((mkRow f.header cells).get "name"))
          (if "operation" = c then "None"
            else renderField ((mkRow f.header cells).get "operation"))
          (if "addressingMode" = c then "None"
            else renderField ((mkRow f.header cells).get "addressingMode"))
          (if "cycles" = c then "None"
            else renderField ((mkRow f.header cells).get "cycles")) := by
  refine ⟨rfl, ?_⟩
  intro cells _
  have hget : (mkRow f.header cells).get c = none :=
    Row.get_eq_none_of_not_mem f.header cells c habs
  refine ⟨hget, ?_⟩
  have e1 : (if "name" = c then "None"
      else renderField ((mkRow f.header cells).get "name")) =
      renderField ((mkRow f.header cells).get "name") := by
    by_cases hx : "name" = c
    · subst hx; simp [hget, renderField]
    · simp [hx]
  have e2 : (if "operation" = c then "None"
      else renderField ((mkRow f.header cells).get "operation")) =
      renderField ((mkRow f.header cells).get "operation") := by
    by_cases hx : "operation" = c
    · subst hx; simp [hget, renderField]
    · simp [hx]
  have e3 : (if "addressingMode" = c then "None"
      else renderField ((mkRow f.header cells).get "addressingMode")) =
      renderField ((mkRow f.header cells).get "addressingMode") := by
    by_cases hx : "addressingMode" = c
    · subst hx; simp [hget, renderField]
    · simp [hx]
  have e4 : (if "cycles" = c then "None"
      else renderField ((mkRow f.header cells).get "cycles")) =
      renderField ((mkRow f.header cells).get "cycles") := by
    by_cases hx : "cycles" = c
    · subst hx; simp [hget, renderField]
    · simp [hx]
  rw [e1, e2, e3, e4]
  rfl

/-- Witness for C5: a file whose header lacks the `cycles` column. -/
theorem absent_column_absorbed_witness :
    ("cycles" ∈ fourCols ∧
      "cycles" ∉
        (CsvFile.mk ["name", "operation", "addressingMode"]
          [["LDA", "load_accumulator", "immediate"]]).header) ∧
    program (Except.ok (CsvFile.mk ["name", "operation", "addressingMode"]
        [["LDA", "load_accumulator", "immediate"]])) =
      Except.ok (runProgram (CsvFile.mk ["name", "operation", "addressingMode"]
        [["LDA", "load_accumulator", "immediate"]])) := by
  exact ⟨⟨by decide, by decide⟩,
    (absent_column_absorbed
      (CsvFile.mk ["name", "operation", "addressingMode"]
        [["LDA", "load_accumulator", "immediate"]])
      "cycles" (by decide) (by decide)).1⟩

/-- C6: a failing load propagates uncaught and the run performs no
standard-output write: the error passes through unchanged and the effect
trace holds no stdout effect. -/
theorem load_failure_propagates (e : String) :
    program (Except.error e) = Except.error e ∧
    (programTrace (Except.error e)).filter Effect.isStdoutWrite = [] :=
  ⟨rfl, rfl⟩

/-- C8: the output depends only on the four named columns — two files whose
rows pairwise agree on the lookups of `name`, `operation`, `addressingMode`
and `cycles` produce identical output, whatever extra columns exist and in
whatever order the columns appear. -/
theorem output_depends_only_on_four_columns (f g : CsvFile)
    (h : List.Forall₂
        (fun rf rg => ∀ c ∈ fourCols,
          (mkRow f.header rf).get c = (mkRow g.header rg).get c)
        f.dataRows g.dataRows) :
    runProgram f = runProgram g := by
  unfold runProgram
  exact map_emitLine_congr f.header g.header f.dataRows g.dataRows h

/-- Witness for C8: the same row data under a reordered header with an extra
column. -/
theorem output_depends_only_on_four_columns_witness :
    List.Forall₂
        (fun rf rg => ∀ c ∈ fourCols,
          (mkRow ["name", "operation", "addressingMode", "cycles"] rf).get c =
            (mkRow ["cycles", "extra", "name", "operation", "addressingMode"] rg).get c)
        [["LDA", "load_accumulator", "immediate", "2"]]
        [["2", "junk", "LDA", "load_accumulator", "immediate"]] ∧
    runProgram ⟨["name", "operation", "addressingMode", "cycles"],
        [["LDA", "load_accumulator", "immediate", "2"]]⟩ =
      runProgram ⟨["cycles", "extra", "name", "operation", "addressingMode"],
        [["2", "junk", "LDA", "load_accumulator", "immediate"]]⟩ := by
  have h : List.Forall₂
      (fun rf rg => ∀ c ∈ fourCols,
        (mkRow ["name", "operation", "addressingMode", "cycles"] rf).get c =
          (mkRow ["cycles", "extra", "name", "operation", "addressingMode"] rg).get c)
      [["LDA", "load_accumulator", "immediate", "2"]]
      [["2", "junk", "LDA", "load_accumulator", "immediate"]] := by decide
  exact ⟨h,
    output_depends_only_on_four_columns
      ⟨["name", "operation", "addressingMode", "cycles"],
        [["LDA", "load_accumulator", "immediate", "2"]]⟩
      ⟨["cycles", "extra", "name", "operation", "addressingMode"],
        [["2", "junk", "LDA", "load_accumulator", "immediate"]]⟩ h⟩

/-- C9: the only effects of a successful run are the single read of the
fixed input path and standard-output writes: the trace holds exactly one
read (of that path), no file write, no stderr write, and every effect is
that read or a stdout write. -/
theorem side_effects_frame (f : CsvFile) :
    (programTrace (Except.ok f)).filter Effect.isRead =
        [Effect.readFile inputPath] ∧
    (programTrace (Except.ok f)).filter Effect.isFileWrite = [] ∧
    (programTrace (Except.ok f)).filter Effect.isStderrWrite = [] ∧
    (programTrace (Except.ok f)).all
        (fun eff => eff.isRead || eff.isStdoutWrite) = true := by
  refine ⟨?_, ?_, ?_, ?_⟩ <;>
    · simp only [programTrace]
      induction runProgram f with
      | nil => rfl
      | cons x xs ih =>
          simp only [List.map_cons, List.filter, List.all] at ih ⊢
          simp [Effect.isRead, Effect.isFileWrite, Effect.isStderrWrite,
            Effect.isStdoutWrite, ih]

/-- C10: the missing-value marker is the literal text `None` — a lookup of
one of the four columns that misses renders as `None`, and the emitted line
contains those four characters. -/
theorem missing_lookup_renders_None (r : Row) (c : String) (hc : c ∈ fourCols)
    (h : r.get c = none) :
    renderField (r.get c) = "None" ∧
    ∃ pre post, emitLine r = pre ++ "None" ++ post := by
  refine ⟨by simp [h, renderField], ?_⟩
  have hfc : c = "name" ∨ c = "operation" ∨ c = "addressingMode" ∨
      c = "cycles" := by simpa [fourCols] using hc
  rcases hfc with rfl | rfl | rfl | rfl
  · exact ⟨"Instruction::new(\"",
      "\".to_string(),Some(Cpu::" ++ renderField (r.get "operation") ++
        "),Some(Cpu::" ++ renderField (r.get "addressingMode") ++ ")," ++
        renderField (r.get "cycles") ++ "),",
      by unfold emitLine emitLineParts; rw [h]; simp only [renderField, String.append_assoc]⟩
  · exact ⟨"Instruction::new(\"" ++ renderField (r.get "name") ++
        "\".to_string(),Some(Cpu::",
      "),Some(Cpu::" ++ renderField (r.get "addressingMode") ++ ")," ++
        renderField (r.get "cycles") ++ "),",
      by unfold emitLine emitLineParts; rw [h]; simp only [renderField, String.append_assoc]⟩
  · exact ⟨"Instruction::new(\"" ++ renderField (r.get "name") ++
        "\".to_string(),Some(Cpu::" ++ renderField (r.get "operation") ++
        "),Some(Cpu::",
      ")," ++ renderField (r.get "cycles") ++ "),",
      by unfold emitLine emitLineParts; rw [h]; simp only [renderField, String.append_assoc]⟩
  · exact ⟨"Instruction::new(\"" ++ renderField (r.get "name") ++
        "\".to_string(),Some(Cpu::" ++ renderField (r.get "operation") ++
        "),Some(Cpu::" ++ renderField (r.get "addressingMode") ++ "),",
      "),",
      by unfold emitLine emitLineParts; rw [h]; simp only [renderField, String.append_assoc]⟩

/-- Witness for C10: a row with no columns at all. -/
theorem missing_lookup_renders_None_witness :
    ("cycles" ∈ fourCols ∧ (Row.mk []).get "cycles" = none) ∧
    (renderField ((Row.mk []).get "cycles") = "None" ∧
      ∃ pre post, emitLine (Row.mk []) = pre ++ "None" ++ post) :=
  ⟨⟨by decide, rfl⟩,
    missing_lookup_renders_None (Row.mk []) "cycles" (by decide) rfl⟩
